import Mathlib

/-!
Verification of the iNaturalist Bingo App against its specification.

The development shallowly embeds the Python sources (`bingo_generator.py`,
`models.py`, `config.py`, `inaturalist_client.py`, `image_processor.py`,
`pdf_renderer.py`) as Lean functions.  Python machine-level details are
rendered as follows: fallible code returns `Except PyErr`; `None`-able values
are `Option`s; Python float arithmetic in the renderer is modelled over `ℚ`;
the standard library's `random.Random` is modelled as an abstract
`RandomModel` (a deterministic function of the seed when a seed is given, a
function of an entropy source when not), quantified over in the theorems.
-/

namespace INatBingo

/-- Embeds `models.Species`: a dataclass with taxon id, names and photo URL. -/
structure Species where
  taxon_id : Int
  common_name : String
  scientific_name : String
  image_url : String
deriving DecidableEq, Repr

/-- Embeds `Species.display_name`: the common name if truthy (non-empty), else
the scientific name. -/
def Species.display_name (s : Species) : String :=
  if s.common_name ≠ "" then s.common_name else s.scientific_name

/-- Embeds `models.BingoCell = Union[Species, str]`: a cell is a species or the
`"FREE"` sentinel, modelled as a tagged variant. -/
inductive BingoCell where
  | free : BingoCell
  | species : Species → BingoCell
deriving DecidableEq, Repr

/-- Boolean test for the free marker (Python `cell == "FREE"`). -/
def BingoCell.isFree : BingoCell → Bool
  | .free => true
  | .species _ => false

/-- Embeds `models.BingoGrid = List[List[BingoCell]]`. -/
abbrev BingoGrid := List (List BingoCell)

/-- Embeds `models.BingoCard`. -/
structure BingoCard where
  grid : BingoGrid
  size : Nat
  has_free_square : Bool
  seed : Option Int
deriving DecidableEq, Repr

/-- Python exceptions that the generator can raise. -/
inductive PyErr where
  | valueError : String → PyErr
  | indexError : PyErr
deriving DecidableEq, Repr

/-- Embeds `BingoCard.__post_init__`: constructing a card validates that the
grid has `size` rows, each of length `size`, raising `ValueError` otherwise. -/
def BingoCard.mk_validated (grid : BingoGrid) (size : Nat) (has_free_square : Bool)
    (seed : Option Int) : Except PyErr BingoCard :=
  if grid.length ≠ size then
    .error (.valueError "Grid must have size rows")
  else if grid.any (fun row => row.length ≠ size) then
    .error (.valueError "Each row must have size columns")
  else
    .ok ⟨grid, size, has_free_square, seed⟩

/-- Model of Python's `random.Random`: `seeded s` is the permutation
`random.Random(s).shuffle` applies (a pure function of the integer seed and the
list), and `entropy w` is the permutation applied when no seed is given, as a
function of an abstract entropy source `w`.  Theorems quantify over this model,
so they hold for the concrete Mersenne-Twister implementation in particular. -/
structure RandomModel where
  seeded : Int → List Species → List Species
  entropy : Nat → List Species → List Species

/-- Dispatch of `random.Random(seed).shuffle` on an optional seed: a given seed
determines the result; seed absence consults the entropy source. -/
def RandomModel.shuffle (M : RandomModel) (seed : Option Int) (world : Nat)
    (l : List Species) : List Species :=
  match seed with
  | some s => M.seeded s l
  | none => M.entropy world l

/-- `random.shuffle` permutes the list in place, so every shuffle outcome is a
permutation of the input. -/
def RandomModel.Lawful (M : RandomModel) : Prop :=
  (∀ s l, (M.seeded s l).Perm l) ∧ (∀ w l, (M.entropy w l).Perm l)

/-- The condition of `_build_grid`'s inner-loop test
`free_square and grid_size == 5 and r == c == grid_size // 2`. -/
def isCenterFree (free_square : Bool) (grid_size r c : Nat) : Bool :=
  free_square && grid_size == 5 && r == c && c == grid_size / 2

/-- Embeds the inner (`for c in range(grid_size)`) loop of `_build_grid`:
walks the column indices, placing the free marker at the centre test and
otherwise consuming `cells[idx]` (an out-of-range access raises `IndexError`).
Returns the row together with the final `idx`. -/
def buildRowCells (cells : List Species) (grid_size r : Nat) (free_square : Bool) :
    Nat → List Nat → Except PyErr (List BingoCell × Nat)
  | idx, [] => .ok ([], idx)
  | idx, c :: cs =>
    if isCenterFree free_square grid_size r c then
      match buildRowCells cells grid_size r free_square idx cs with
      | .ok (rest, idx') => .ok (.free :: rest, idx')
      | .error e => .error e
    else
      match cells[idx]? with
      | some sp =>
        match buildRowCells cells grid_size r free_square (idx + 1) cs with
        | .ok (rest, idx') => .ok (.species sp :: rest, idx')
        | .error e => .error e
      | none => .error .indexError

/-- Embeds the outer (`for r in range(grid_size)`) loop of `_build_grid`. -/
def buildRows (cells : List Species) (grid_size : Nat) (free_square : Bool) :
    Nat → List Nat → Except PyErr (BingoGrid × Nat)
  | idx, [] => .ok ([], idx)
  | idx, r :: rs =>
    match buildRowCells cells grid_size r free_square idx (List.range grid_size) with
    | .ok (row, idx') =>
      match buildRows cells grid_size free_square idx' rs with
      | .ok (rest, idx'') => .ok (row :: rest, idx'')
      | .error e => .error e
    | .error e => .error e

/-- Embeds `BingoGenerator._build_grid`.  The generator state
(`self.species_pool`) is passed and returned explicitly; `shuffled` is a copy
of the pool (`self.species_pool.copy()`), so shuffling leaves the pool
component untouched. -/
def build_grid (M : RandomModel) (species_pool : List Species) (grid_size : Nat)
    (free_square : Bool) (seed : Option Int) (world : Nat) :
    Except PyErr BingoGrid × List Species :=
  let shuffled := M.shuffle seed world species_pool
  let needed := grid_size ^ 2 - (if free_square && grid_size == 5 then 1 else 0)
  let cells := shuffled.take needed
  (match buildRows cells grid_size free_square 0 (List.range grid_size) with
   | .ok (grid, _) => .ok grid
   | .error e => .error e,
   species_pool)

/-- Embeds `BingoGenerator.generate_card`: the capacity check
`grid_size**2 > len(self.species_pool) + (1 if free_square else 0)` raises
`ValueError`, otherwise the grid is built and a validated card returned. -/
def generate_card (M : RandomModel) (species_pool : List Species) (grid_size : Nat)
    (free_square : Bool) (seed : Option Int) (world : Nat) :
    Except PyErr BingoCard × List Species :=
  if grid_size ^ 2 > species_pool.length + (if free_square then 1 else 0) then
    (.error (.valueError "Not enough species to fill the requested card size"), species_pool)
  else
    match build_grid M species_pool grid_size free_square seed world with
    | (.ok grid, pool') =>
      (BingoCard.mk_validated grid grid_size free_square seed, pool')
    | (.error e, pool') => (.error e, pool')

/-- Embeds the `for i in range(num_cards)` loop of `generate_cards`,
accumulating cards; `card_seed = base_seed + i if base_seed is not None else
None`.  Distinct unseeded calls consult distinct entropy (`world + i`). -/
def generate_cards_loop (M : RandomModel) (species_pool : List Species)
    (grid_size : Nat) (free_square : Bool) (base_seed : Option Int) (world : Nat) :
    List BingoCard → List Nat → Except PyErr (List BingoCard) × List Species
  | acc, [] => (.ok acc, species_pool)
  | acc, i :: is =>
    let card_seed := base_seed.map (fun s => s + (i : Int))
    match generate_card M species_pool grid_size free_square card_seed (world + i) with
    | (.ok card, _) =>
      generate_cards_loop M species_pool grid_size free_square base_seed world
        (acc ++ [card]) is
    | (.error e, _) => (.error e, species_pool)

/-- Embeds `BingoGenerator.generate_cards`. -/
def generate_cards (M : RandomModel) (species_pool : List Species) (num_cards : Nat)
    (grid_size : Nat) (free_square : Bool) (base_seed : Option Int) (world : Nat) :
    Except PyErr (List BingoCard) × List Species :=
  generate_cards_loop M species_pool grid_size free_square base_seed world []
    (List.range num_cards)

/-- The species referenced by a grid, in row-major order. -/
def gridSpecies (g : BingoGrid) : List Species :=
  g.flatten.filterMap fun c =>
    match c with
    | .free => none
    | .species s => some s

/-- Number of free markers in a grid. -/
def countFree (g : BingoGrid) : Nat :=
  g.flatten.countP BingoCell.isFree

/-- The cell at row `r`, column `c` of a grid, if present. -/
def cellAt (g : BingoGrid) (r c : Nat) : Option BingoCell :=
  (g[r]?).bind fun row => row[c]?

/-- Whether an `Except` result is a `ValueError` (the generator's capacity
error is the only `ValueError` `generate_card` itself raises). -/
def isValueError {α : Type} : Except PyErr α → Bool
  | .error (.valueError _) => true
  | _ => false

/-- Whether an `Except` result is a success. -/
def isOkE {α : Type} : Except PyErr α → Bool
  | .ok _ => true
  | .error _ => false

/-- A concrete lawful `RandomModel` instance (the identity permutation),
used to exhibit concrete runs. -/
def idRandom : RandomModel where
  seeded := fun _ l => l
  entropy := fun _ l => l

/-- A concrete species, distinct for distinct `n`. -/
def sp (n : Nat) : Species :=
  { taxon_id := n, common_name := "c", scientific_name := "s", image_url := "u" }

/-- A pool of `n` pairwise-distinct species. -/
def poolN (n : Nat) : List Species := (List.range n).map sp

/-- The species referenced by one row, in order. -/
def rowSpecies (row : List BingoCell) : List Species :=
  row.filterMap fun c =>
    match c with
    | .free => none
    | .species s => some s

/-- Number of species slots a row consumes: its columns other than a free
marker position. -/
def rowSlots (grid_size r : Nat) (free_square : Bool) (cols : List Nat) : Nat :=
  cols.countP fun c => !isCenterFree free_square grid_size r c

/-- Number of species slots a whole grid consumes. -/
def gridSlots (grid_size : Nat) (free_square : Bool) (rows : List Nat) : Nat :=
  (rows.map fun r => rowSlots grid_size r free_square (List.range grid_size)).sum

theorem gridSpecies_nil : gridSpecies [] = [] := rfl

theorem gridSpecies_cons (row : List BingoCell) (rest : BingoGrid) :
    gridSpecies (row :: rest) = rowSpecies row ++ gridSpecies rest := by
  simp [gridSpecies, rowSpecies]

theorem countFree_cons (row : List BingoCell) (rest : BingoGrid) :
    countFree (row :: rest) = row.countP BingoCell.isFree + countFree rest := by
  simp [countFree]

theorem rowSlots_nil (grid_size r : Nat) (free_square : Bool) :
    rowSlots grid_size r free_square [] = 0 := rfl

theorem rowSlots_cons_center (grid_size r c : Nat) (free_square : Bool)
    (cs : List Nat) (hc : isCenterFree free_square grid_size r c = true) :
    rowSlots grid_size r free_square (c :: cs) = rowSlots grid_size r free_square cs := by
  simp [rowSlots, List.countP_cons, hc]

theorem rowSlots_cons_other (grid_size r c : Nat) (free_square : Bool)
    (cs : List Nat) (hc : isCenterFree free_square grid_size r c = false) :
    rowSlots grid_size r free_square (c :: cs) = rowSlots grid_size r free_square cs + 1 := by
  simp [rowSlots, List.countP_cons, hc]

/-- Characterization of a successful inner loop run: the final index advances
by the number of species slots; the row is as long as the column list; the
species it references are the next `rowSlots` entries of `cells`, in order;
and its free markers are counted by the centre test. -/
theorem buildRowCells_ok_spec (cells : List Species) (grid_size r : Nat)
    (free_square : Bool) (cols : List Nat) :
    ∀ (idx : Nat) (row : List BingoCell) (idx' : Nat),
      buildRowCells cells grid_size r free_square idx cols = .ok (row, idx') →
      idx' = idx + rowSlots grid_size r free_square cols ∧
      row.length = cols.length ∧
      rowSpecies row = (cells.drop idx).take (rowSlots grid_size r free_square cols) ∧
      row.countP BingoCell.isFree = cols.countP (isCenterFree free_square grid_size r) := by
  induction cols with
  | nil =>
    intro idx row idx' h
    simp only [buildRowCells, Except.ok.injEq, Prod.mk.injEq] at h
    obtain ⟨hrow, hidx⟩ := h
    refine ⟨by rw [rowSlots_nil]; omega, ?_, ?_, ?_⟩ <;> rw [← hrow] <;>
      simp [rowSlots, rowSpecies]
  | cons c cs ih =>
    intro idx row idx' h
    rw [buildRowCells] at h
    by_cases hc : isCenterFree free_square grid_size r c
    · rw [if_pos hc] at h
      cases hrec : buildRowCells cells grid_size r free_square idx cs with
      | ok p =>
        obtain ⟨rest, idx₂⟩ := p
        rw [hrec] at h
        simp only [Except.ok.injEq, Prod.mk.injEq] at h
        obtain ⟨hrow, hidx⟩ := h
        obtain ⟨h1, h2, h3, h4⟩ := ih idx rest idx₂ hrec
        rw [← hrow, ← hidx, rowSlots_cons_center grid_size r c free_square cs hc]
        refine ⟨h1, by simp [h2], ?_, ?_⟩
        · rw [rowSpecies, List.filterMap_cons]
          exact h3
        · rw [List.countP_cons, List.countP_cons]
          simp [hc, BingoCell.isFree, h4]
      | error e =>
        rw [hrec] at h
        exact absurd h (by simp)
    · rw [if_neg hc] at h
      cases hcell : cells[idx]? with
      | some spc =>
        rw [hcell] at h
        cases hrec : buildRowCells cells grid_size r free_square (idx + 1) cs with
        | ok p =>
          obtain ⟨rest, idx₂⟩ := p
          rw [hrec] at h
          simp only [Except.ok.injEq, Prod.mk.injEq] at h
          obtain ⟨hrow, hidx⟩ := h
          obtain ⟨h1, h2, h3, h4⟩ := ih (idx + 1) rest idx₂ hrec
          have hlt : idx < cells.length := by
            by_contra hge
            rw [List.getElem?_eq_none (by omega)] at hcell
            exact absurd hcell (by simp)
          have hget : cells[idx] = spc := by
            have h0 := hcell
            rw [List.getElem?_eq_getElem hlt] at h0
            exact Option.some.inj h0
          have hcbool : isCenterFree free_square grid_size r c = false := by
            simpa using hc
          rw [← hrow, ← hidx, rowSlots_cons_other grid_size r c free_square cs hcbool]
          refine ⟨by omega, by simp [h2], ?_, ?_⟩
          · rw [rowSpecies, List.filterMap_cons]
            simp only []
            rw [List.drop_eq_getElem_cons hlt, hget, List.take_succ_cons]
            rw [rowSpecies] at h3
            rw [h3]
          · rw [List.countP_cons, List.countP_cons]
            simp [hcbool, BingoCell.isFree, h4]
        | error e =>
          rw [hrec] at h
          exact absurd h (by simp)
      | none =>
        rw [hcell] at h
        exact absurd h (by simp)

/-- The inner loop succeeds exactly when the species slots it must fill fit in
`cells`, provided the running index is in range to begin with. -/
theorem buildRowCells_isOk (cells : List Species) (grid_size r : Nat)
    (free_square : Bool) (cols : List Nat) :
    ∀ idx : Nat, idx ≤ cells.length →
      (isOkE (buildRowCells cells grid_size r free_square idx cols) = true ↔
        idx + rowSlots grid_size r free_square cols ≤ cells.length) := by
  induction cols with
  | nil =>
    intro idx hidx
    simp [buildRowCells, isOkE, rowSlots_nil, hidx]
  | cons c cs ih =>
    intro idx hidx
    rw [buildRowCells]
    by_cases hc : isCenterFree free_square grid_size r c
    · rw [if_pos hc, rowSlots_cons_center grid_size r c free_square cs hc]
      cases hrec : buildRowCells cells grid_size r free_square idx cs with
      | ok p => simpa [isOkE, hrec] using (ih idx hidx)
      | error e => simpa [isOkE, hrec] using (ih idx hidx)
    · have hcbool : isCenterFree free_square grid_size r c = false := by simpa using hc
      rw [if_neg hc, rowSlots_cons_other grid_size r c free_square cs hcbool]
      cases hcell : cells[idx]? with
      | some spc =>
        have hlt : idx < cells.length := by
          by_contra hge
          rw [List.getElem?_eq_none (by omega)] at hcell
          exact absurd hcell (by simp)
        have h' := ih (idx + 1) hlt
        cases hrec : buildRowCells cells grid_size r free_square (idx + 1) cs with
        | ok p =>
          obtain ⟨rest, idx₂⟩ := p
          rw [hrec] at h'
          have hb : idx + 1 + rowSlots grid_size r free_square cs ≤ cells.length :=
            h'.mp (by simp [isOkE])
          constructor
          · intro _; omega
          · intro _; simp [isOkE]
        | error e =>
          rw [hrec] at h'
          constructor
          · intro hfalse
            simp [isOkE] at hfalse
          · intro hle
            have := h'.mpr (by omega)
            simp [isOkE] at this
      | none =>
        have hge : cells.length ≤ idx := by
          by_contra hlt
          rw [List.getElem?_eq_getElem (by omega)] at hcell
          exact absurd hcell (by simp)
        constructor
        · intro hfalse
          exact absurd hfalse (by simp [isOkE])
        · intro hle; omega

/-- A cell of a successfully built row is the free marker exactly at a column
passing the centre test. -/
theorem buildRowCells_free_pos (cells : List Species) (grid_size r : Nat)
    (free_square : Bool) (cols : List Nat) :
    ∀ (idx : Nat) (row : List BingoCell) (idx' : Nat),
      buildRowCells cells grid_size r free_square idx cols = .ok (row, idx') →
      ∀ j : Nat, (row[j]? = some .free ↔
        ∃ c, cols[j]? = some c ∧ isCenterFree free_square grid_size r c = true) := by
  induction cols with
  | nil =>
    intro idx row idx' h j
    simp only [buildRowCells, Except.ok.injEq, Prod.mk.injEq] at h
    obtain ⟨hrow, _⟩ := h
    rw [← hrow]
    simp
  | cons c cs ih =>
    intro idx row idx' h j
    rw [buildRowCells] at h
    by_cases hc : isCenterFree free_square grid_size r c
    · rw [if_pos hc] at h
      cases hrec : buildRowCells cells grid_size r free_square idx cs with
      | ok p =>
        obtain ⟨rest, idx₂⟩ := p
        rw [hrec] at h
        simp only [Except.ok.injEq, Prod.mk.injEq] at h
        obtain ⟨hrow, _⟩ := h
        rw [← hrow]
        cases j with
        | zero => simp [hc]
        | succ j' => simpa using ih idx rest idx₂ hrec j'
      | error e =>
        rw [hrec] at h
        exact absurd h (by simp)
    · have hcbool : isCenterFree free_square grid_size r c = false := by simpa using hc
      rw [if_neg hc] at h
      cases hcell : cells[idx]? with
      | some spc =>
        rw [hcell] at h
        cases hrec : buildRowCells cells grid_size r free_square (idx + 1) cs with
        | ok p =>
          obtain ⟨rest, idx₂⟩ := p
          rw [hrec] at h
          simp only [Except.ok.injEq, Prod.mk.injEq] at h
          obtain ⟨hrow, _⟩ := h
          rw [← hrow]
          cases j with
          | zero => simp [hcbool]
          | succ j' => simpa using ih (idx + 1) rest idx₂ hrec j'
        | error e =>
          rw [hrec] at h
          exact absurd h (by simp)
      | none =>
        rw [hcell] at h
        exact absurd h (by simp)

/-- The only exception the grid-filling loops raise themselves is
`IndexError` (from `cells[idx]`). -/
theorem buildRowCells_error (cells : List Species) (grid_size r : Nat)
    (free_square : Bool) (cols : List Nat) :
    ∀ (idx : Nat) (e : PyErr),
      buildRowCells cells grid_size r free_square idx cols = .error e →
      e = .indexError := by
  induction cols with
  | nil =>
    intro idx e h
    exact absurd h (by simp [buildRowCells])
  | cons c cs ih =>
    intro idx e h
    rw [buildRowCells] at h
    by_cases hc : isCenterFree free_square grid_size r c
    · rw [if_pos hc] at h
      cases hrec : buildRowCells cells grid_size r free_square idx cs with
      | ok p => rw [hrec] at h; exact absurd h (by simp)
      | error e' =>
        rw [hrec] at h
        simp only [Except.error.injEq] at h
        rw [← h]
        exact ih idx e' hrec
    · rw [if_neg hc] at h
      cases hcell : cells[idx]? with
      | some spc =>
        rw [hcell] at h
        cases hrec : buildRowCells cells grid_size r free_square (idx + 1) cs with
        | ok p => rw [hrec] at h; exact absurd h (by simp)
        | error e' =>
          rw [hrec] at h
          simp only [Except.error.injEq] at h
          rw [← h]
          exact ih (idx + 1) e' hrec
      | none =>
        rw [hcell] at h
        simp only [Except.error.injEq] at h
        exact h.symm

theorem gridSlots_nil (grid_size : Nat) (free_square : Bool) :
    gridSlots grid_size free_square [] = 0 := rfl

theorem gridSlots_cons (grid_size r : Nat) (free_square : Bool) (rs : List Nat) :
    gridSlots grid_size free_square (r :: rs) =
      rowSlots grid_size r free_square (List.range grid_size) +
        gridSlots grid_size free_square rs := by
  simp [gridSlots]

/-- Characterization of a successful outer loop run: index advance, grid
shape, the species consumed (a contiguous block of `cells`), the free-marker
count, and the provenance of each row. -/
theorem buildRows_ok_spec (cells : List Species) (grid_size : Nat)
    (free_square : Bool) (rows : List Nat) :
    ∀ (idx : Nat) (grid : BingoGrid) (idx' : Nat),
      buildRows cells grid_size free_square idx rows = .ok (grid, idx') →
      idx' = idx + gridSlots grid_size free_square rows ∧
      grid.length = rows.length ∧
      (∀ row ∈ grid, row.length = grid_size) ∧
      gridSpecies grid = (cells.drop idx).take (gridSlots grid_size free_square rows) ∧
      countFree grid =
        (rows.map fun r => (List.range grid_size).countP
          (isCenterFree free_square grid_size r)).sum ∧
      (∀ (i rv : Nat), rows[i]? = some rv → ∃ idx₀ row idx₁, grid[i]? = some row ∧
        buildRowCells cells grid_size rv free_square idx₀ (List.range grid_size) =
          .ok (row, idx₁)) := by
  induction rows with
  | nil =>
    intro idx grid idx' h
    simp only [buildRows, Except.ok.injEq, Prod.mk.injEq] at h
    obtain ⟨hgrid, hidx⟩ := h
    rw [← hgrid]
    refine ⟨by rw [gridSlots_nil]; omega, by simp, by simp, by simp [gridSpecies_nil, gridSlots_nil],
      by simp [countFree], by simp⟩
  | cons r rs ih =>
    intro idx grid idx' h
    rw [buildRows] at h
    cases hrow : buildRowCells cells grid_size r free_square idx (List.range grid_size) with
    | ok p =>
      obtain ⟨row, idx₂⟩ := p
      rw [hrow] at h
      dsimp only at h
      cases hrest : buildRows cells grid_size free_square idx₂ rs with
      | ok q =>
        obtain ⟨rest, idx₃⟩ := q
        rw [hrest] at h
        simp only [Except.ok.injEq, Prod.mk.injEq] at h
        obtain ⟨hgrid, hidx⟩ := h
        obtain ⟨ha1, ha2, ha3, ha4⟩ :=
          buildRowCells_ok_spec cells grid_size r free_square (List.range grid_size)
            idx row idx₂ hrow
        obtain ⟨hb1, hb2, hb3, hb4, hb5, hb6⟩ := ih idx₂ rest idx₃ hrest
        rw [← hgrid, ← hidx, gridSlots_cons]
        refine ⟨by omega, by simp [hb2], ?_, ?_, ?_, ?_⟩
        · intro row' hmem
          rcases List.mem_cons.mp hmem with hr | hr
          · rw [hr, ha2, List.length_range]
          · exact hb3 row' hr
        · rw [gridSpecies_cons, List.take_add, ha3]
          have hdrop : (cells.drop idx).drop (rowSlots grid_size r free_square
              (List.range grid_size)) = cells.drop idx₂ := by
            rw [List.drop_drop]
            rw [ha1]
          rw [hdrop, hb4]
        · simp only [countFree_cons, List.map_cons, List.sum_cons, hb5]
          rw [ha4]
        · intro i rv hi
          cases i with
          | zero =>
            simp only [List.getElem?_cons_zero, Option.some.injEq] at hi
            exact ⟨idx, row, idx₂, by simp, by rw [← hi]; exact hrow⟩
          | succ i' =>
            simp only [List.getElem?_cons_succ] at hi
            obtain ⟨idx₀, row', idx₁, hg, hb⟩ := hb6 i' rv hi
            exact ⟨idx₀, row', idx₁, by simpa using hg, hb⟩
      | error e =>
        rw [hrest] at h
        exact absurd h (by simp)
    | error e =>
      rw [hrow] at h
      exact absurd h (by simp)

/-- The outer loop succeeds exactly when all species slots of the grid fit in
`cells`, starting from an in-range index. -/
theorem buildRows_isOk (cells : List Species) (grid_size : Nat)
    (free_square : Bool) (rows : List Nat) :
    ∀ idx : Nat, idx ≤ cells.length →
      (isOkE (buildRows cells grid_size free_square idx rows) = true ↔
        idx + gridSlots grid_size free_square rows ≤ cells.length) := by
  induction rows with
  | nil =>
    intro idx hidx
    simp [buildRows, isOkE, gridSlots_nil, hidx]
  | cons r rs ih =>
    intro idx hidx
    rw [buildRows, gridSlots_cons]
    cases hrow : buildRowCells cells grid_size r free_square idx (List.range grid_size) with
    | ok p =>
      obtain ⟨row, idx₂⟩ := p
      obtain ⟨ha1, _, _, _⟩ :=
        buildRowCells_ok_spec cells grid_size r free_square (List.range grid_size)
          idx row idx₂ hrow
      have hrowfit : idx + rowSlots grid_size r free_square (List.range grid_size) ≤
          cells.length :=
        (buildRowCells_isOk cells grid_size r free_square (List.range grid_size) idx
          hidx).mp (by simp [isOkE, hrow])
      have hidx₂ : idx₂ ≤ cells.length := by omega
      have h' := ih idx₂ hidx₂
      cases hrest : buildRows cells grid_size free_square idx₂ rs with
      | ok q =>
        obtain ⟨rest, idx₃⟩ := q
        rw [hrest] at h'
        have hb := h'.mp (by simp [isOkE])
        constructor
        · intro _; omega
        · intro _; simp [isOkE, hrest]
      | error e =>
        rw [hrest] at h'
        constructor
        · intro hfalse
          simp [isOkE, hrest] at hfalse
        · intro hle
          have := h'.mpr (by omega)
          simp [isOkE] at this
    | error e =>
      have hnotok : ¬ (idx + rowSlots grid_size r free_square (List.range grid_size) ≤
          cells.length) := by
        intro hle
        have := (buildRowCells_isOk cells grid_size r free_square (List.range grid_size)
          idx hidx).mpr hle
        rw [hrow] at this
        simp [isOkE] at this
      constructor
      · intro hfalse
        simp [isOkE] at hfalse
      · intro hle
        exact absurd (by omega) hnotok

/-- The outer loop raises only `IndexError`. -/
theorem buildRows_error (cells : List Species) (grid_size : Nat)
    (free_square : Bool) (rows : List Nat) :
    ∀ (idx : Nat) (e : PyErr),
      buildRows cells grid_size free_square idx rows = .error e → e = .indexError := by
  induction rows with
  | nil =>
    intro idx e h
    exact absurd h (by simp [buildRows])
  | cons r rs ih =>
    intro idx e h
    rw [buildRows] at h
    cases hrow : buildRowCells cells grid_size r free_square idx (List.range grid_size) with
    | ok p =>
      obtain ⟨row, idx₂⟩ := p
      rw [hrow] at h
      dsimp only at h
      cases hrest : buildRows cells grid_size free_square idx₂ rs with
      | ok q => rw [hrest] at h; exact absurd h (by simp)
      | error e' =>
        rw [hrest] at h
        simp only [Except.error.injEq] at h
        rw [← h]
        exact ih idx₂ e' hrest
    | error e' =>
      rw [hrow] at h
      simp only [Except.error.injEq] at h
      rw [← h]
      exact buildRowCells_error cells grid_size r free_square (List.range grid_size) idx e' hrow

theorem RandomModel.shuffle_perm (M : RandomModel) (hM : M.Lawful)
    (seed : Option Int) (world : Nat) (l : List Species) :
    (M.shuffle seed world l).Perm l := by
  cases seed with
  | some s => exact hM.1 s l
  | none => exact hM.2 world l

theorem RandomModel.shuffle_length (M : RandomModel) (hM : M.Lawful)
    (seed : Option Int) (world : Nat) (l : List Species) :
    (M.shuffle seed world l).length = l.length :=
  (M.shuffle_perm hM seed world l).length_eq

/-- The number of species slots of the full `grid_size × grid_size` grid is
`grid_size² - 1` exactly when the free square is requested at size 5, else
`grid_size²` (the `needed` count of `_build_grid`). -/
theorem gridSlots_range (grid_size : Nat) (free_square : Bool) :
    gridSlots grid_size free_square (List.range grid_size) =
      grid_size ^ 2 - (if free_square && grid_size == 5 then 1 else 0) := by
  by_cases h : free_square && grid_size == 5
  · obtain ⟨hf, h5b⟩ := (Bool.and_eq_true _ _).mp h
    have h5 : grid_size = 5 := by simpa using h5b
    subst h5; subst hf
    decide
  · have hb : (free_square && grid_size == 5) = false := by
      simpa using h
    have hfalse : ∀ r c : Nat, isCenterFree free_square grid_size r c = false := by
      intro r c
      simp [isCenterFree, hb]
    have hrow : ∀ r : Nat,
        rowSlots grid_size r free_square (List.range grid_size) = grid_size := by
      intro r
      rw [rowSlots]
      rw [List.countP_eq_length.mpr (fun c _ => by simp [hfalse r c])]
      rw [List.length_range]
    rw [gridSlots]
    rw [List.map_congr_left (fun r _ => hrow r)]
    simp [hb, List.map_const', pow_two]

theorem isOkE_exists {α : Type} {e : Except PyErr α} (h : isOkE e = true) :
    ∃ a, e = .ok a := by
  cases e with
  | ok a => exact ⟨a, rfl⟩
  | error er => simp [isOkE] at h

theorem isOkE_error {α : Type} {e : Except PyErr α} (h : isOkE e = false) :
    ∃ er, e = .error er := by
  cases e with
  | ok a => simp [isOkE] at h
  | error er => exact ⟨er, rfl⟩

/-- `build_grid` unfolded to its result pair. -/
theorem build_grid_eq (M : RandomModel) (species_pool : List Species)
    (grid_size : Nat) (free_square : Bool) (seed : Option Int) (world : Nat) :
    build_grid M species_pool grid_size free_square seed world =
      (match buildRows ((M.shuffle seed world species_pool).take
          (grid_size ^ 2 - (if free_square && grid_size == 5 then 1 else 0)))
          grid_size free_square 0 (List.range grid_size) with
       | .ok (grid, _) => .ok grid
       | .error e => .error e,
       species_pool) := rfl

/-- Inversion for a successful `generate_card` call: the card's grid comes
from a successful `buildRows` run over the truncated shuffled pool, and the
card records the requested size, flag and seed. -/
theorem generate_card_ok_inv (M : RandomModel) (species_pool : List Species)
    (grid_size : Nat) (free_square : Bool) (seed : Option Int) (world : Nat)
    (card : BingoCard)
    (h : (generate_card M species_pool grid_size free_square seed world).1 = .ok card) :
    ∃ idxf, buildRows ((M.shuffle seed world species_pool).take
        (grid_size ^ 2 - (if free_square && grid_size == 5 then 1 else 0)))
        grid_size free_square 0 (List.range grid_size) = .ok (card.grid, idxf) ∧
      card.size = grid_size ∧ card.has_free_square = free_square ∧ card.seed = seed := by
  rw [generate_card] at h
  by_cases hchk : grid_size ^ 2 >
      species_pool.length + (if free_square then 1 else 0)
  · rw [if_pos hchk] at h
    exact absurd h (by simp)
  · rw [if_neg hchk, build_grid_eq] at h
    cases hrows : buildRows ((M.shuffle seed world species_pool).take
        (grid_size ^ 2 - (if free_square && grid_size == 5 then 1 else 0)))
        grid_size free_square 0 (List.range grid_size) with
    | ok p =>
      obtain ⟨grid, idxf⟩ := p
      rw [hrows] at h
      dsimp only at h
      rw [BingoCard.mk_validated] at h
      by_cases h1 : grid.length ≠ grid_size
      · rw [if_pos h1] at h
        exact absurd h (by simp)
      · rw [if_neg h1] at h
        by_cases h2 : grid.any (fun row => row.length ≠ grid_size)
        · rw [if_pos h2] at h
          exact absurd h (by simp)
        · rw [if_neg h2] at h
          simp only [Except.ok.injEq] at h
          subst h
          exact ⟨idxf, rfl, rfl, rfl, rfl⟩
    | error e =>
      rw [hrows] at h
      exact absurd h (by simp)

/-- An `Except PyErr` result is the index error exactly when it is neither a
success nor a `ValueError`. -/
theorem except_trichotomy {α : Type} (e : Except PyErr α) :
    e = .error .indexError ↔ (isOkE e = false ∧ isValueError e = false) := by
  cases e with
  | ok a => simp [isOkE, isValueError]
  | error er => cases er <;> simp [isOkE, isValueError]

/-- The `cells` list of `_build_grid`: the shuffled pool truncated to the
`needed` count. -/
def shuffledCells (M : RandomModel) (species_pool : List Species) (grid_size : Nat)
    (free_square : Bool) (seed : Option Int) (world : Nat) : List Species :=
  (M.shuffle seed world species_pool).take
    (grid_size ^ 2 - (if free_square && grid_size == 5 then 1 else 0))

theorem shuffledCells_length (M : RandomModel) (hM : M.Lawful)
    (species_pool : List Species) (grid_size : Nat) (free_square : Bool)
    (seed : Option Int) (world : Nat) :
    (shuffledCells M species_pool grid_size free_square seed world).length =
      min (grid_size ^ 2 - (if free_square && grid_size == 5 then 1 else 0))
        species_pool.length := by
  simp [shuffledCells, M.shuffle_length hM]

theorem build_grid_eq2 (M : RandomModel) (species_pool : List Species)
    (grid_size : Nat) (free_square : Bool) (seed : Option Int) (world : Nat) :
    build_grid M species_pool grid_size free_square seed world =
      (match buildRows (shuffledCells M species_pool grid_size free_square seed world)
          grid_size free_square 0 (List.range grid_size) with
       | .ok (grid, _) => .ok grid
       | .error e => .error e,
       species_pool) := rfl

/-- C1 (amended): `generate_card` raises the capacity `ValueError` iff
`P + (1 if free else 0) < N²` (the flag credit is applied for every grid size,
not only odd ones); it returns a card iff
`N² - (1 if free and N = 5 else 0) ≤ P`; and in the remaining gap — free flag
set, `N ≠ 5`, `P = N² - 1` — it raises an `IndexError` instead of a capacity
error. -/
theorem generate_card_capacity_spec (M : RandomModel) (hM : M.Lawful)
    (species_pool : List Species) (grid_size : Nat) (free_square : Bool)
    (seed : Option Int) (world : Nat) :
    (isValueError (generate_card M species_pool grid_size free_square seed world).1 = true ↔
      species_pool.length + (if free_square then 1 else 0) < grid_size ^ 2) ∧
    (isOkE (generate_card M species_pool grid_size free_square seed world).1 = true ↔
      grid_size ^ 2 - (if free_square && grid_size == 5 then 1 else 0) ≤
        species_pool.length) ∧
    ((generate_card M species_pool grid_size free_square seed world).1 =
        .error PyErr.indexError ↔
      free_square = true ∧ grid_size ≠ 5 ∧
        species_pool.length + 1 = grid_size ^ 2) := by
  have hadj : (if free_square && grid_size == 5 then 1 else 0) ≤
      (if free_square then 1 else 0) := by
    cases free_square
    · simp
    · simp only [Bool.true_and]
      split <;> simp
  have key : (isValueError
        (generate_card M species_pool grid_size free_square seed world).1 = true ↔
      species_pool.length + (if free_square then 1 else 0) < grid_size ^ 2) ∧
      (isOkE (generate_card M species_pool grid_size free_square seed world).1 = true ↔
      grid_size ^ 2 - (if free_square && grid_size == 5 then 1 else 0) ≤
        species_pool.length) := by
    by_cases hchk : grid_size ^ 2 >
        species_pool.length + (if free_square then 1 else 0)
    · have hres : (generate_card M species_pool grid_size free_square seed world).1 =
          .error (.valueError "Not enough species to fill the requested card size") := by
        rw [generate_card, if_pos hchk]
      rw [hres]
      constructor
      · exact ⟨fun _ => hchk, fun _ => rfl⟩
      · constructor
        · intro hfalse
          simp [isOkE] at hfalse
        · intro hcon
          rw [Nat.sub_le_iff_le_add] at hcon
          exfalso
          omega
    · have hle : grid_size ^ 2 ≤
          species_pool.length + (if free_square then 1 else 0) :=
        Nat.le_of_not_lt hchk
      have hclen := shuffledCells_length M hM species_pool grid_size free_square seed world
      cases hrows : buildRows (shuffledCells M species_pool grid_size free_square seed world)
          grid_size free_square 0 (List.range grid_size) with
      | ok p =>
        obtain ⟨grid, idxf⟩ := p
        obtain ⟨_, hb2, hb3, _, _, _⟩ :=
          buildRows_ok_spec (shuffledCells M species_pool grid_size free_square seed world)
            grid_size free_square (List.range grid_size) 0 grid idxf hrows
        have hany : grid.any (fun row => row.length ≠ grid_size) = false := by
          rw [List.any_eq_false]
          intro row hmem
          simp [hb3 row hmem]
        have hmk : BingoCard.mk_validated grid grid_size free_square seed =
            .ok ⟨grid, grid_size, free_square, seed⟩ := by
          rw [BingoCard.mk_validated, if_neg (by simp [hb2]), if_neg (by rw [hany]; simp)]
        have hres : (generate_card M species_pool grid_size free_square seed world).1 =
            .ok ⟨grid, grid_size, free_square, seed⟩ := by
          rw [generate_card, if_neg hchk, build_grid_eq2, hrows]
          exact hmk
        have hfit := (buildRows_isOk
          (shuffledCells M species_pool grid_size free_square seed world)
          grid_size free_square (List.range grid_size) 0 (Nat.zero_le _)).mp
          (by simp [isOkE, hrows])
        rw [gridSlots_range, hclen] at hfit
        rw [Nat.zero_add] at hfit
        have hfit2 : grid_size ^ 2 - (if free_square && grid_size == 5 then 1 else 0) ≤
            species_pool.length :=
          le_trans hfit (min_le_right _ _)
        rw [hres]
        constructor
        · constructor
          · intro hfalse
            simp [isValueError] at hfalse
          · intro hlt
            exfalso
            omega
        · exact ⟨fun _ => hfit2, fun _ => rfl⟩
      | error e =>
        have he : e = .indexError :=
          buildRows_error (shuffledCells M species_pool grid_size free_square seed world)
            grid_size free_square (List.range grid_size) 0 e hrows
        subst he
        have hres : (generate_card M species_pool grid_size free_square seed world).1 =
            .error .indexError := by
          rw [generate_card, if_neg hchk, build_grid_eq2, hrows]
        have hnofit : ¬ (0 + gridSlots grid_size free_square (List.range grid_size) ≤
            (shuffledCells M species_pool grid_size free_square seed world).length) := by
          intro hfit
          have := (buildRows_isOk
            (shuffledCells M species_pool grid_size free_square seed world)
            grid_size free_square (List.range grid_size) 0 (Nat.zero_le _)).mpr hfit
          rw [hrows] at this
          simp [isOkE] at this
        rw [gridSlots_range, hclen] at hnofit
        rw [hres]
        constructor
        · constructor
          · intro hfalse
            simp [isValueError] at hfalse
          · intro hlt
            exfalso
            omega
        · constructor
          · intro hfalse
            simp [isOkE] at hfalse
          · intro hcon
            exfalso
            rw [Nat.zero_add] at hnofit
            exact hnofit (le_min (le_refl _) hcon)
  refine ⟨key.1, key.2, ?_⟩
  rw [except_trichotomy]
  have e1 : isOkE (generate_card M species_pool grid_size free_square seed world).1 =
      false ↔ ¬ (grid_size ^ 2 - (if free_square && grid_size == 5 then 1 else 0) ≤
        species_pool.length) := by
    rw [Bool.eq_false_iff]
    exact not_congr key.2
  have e2 : isValueError (generate_card M species_pool grid_size free_square seed world).1 =
      false ↔ ¬ (species_pool.length + (if free_square then 1 else 0) < grid_size ^ 2) := by
    rw [Bool.eq_false_iff]
    exact not_congr key.1
  rw [e1, e2]
  cases free_square with
  | false =>
    constructor
    · rintro ⟨h1, h2⟩
      exfalso
      simp at h1 h2
      omega
    · rintro ⟨hf, _, _⟩
      exact absurd hf (by simp)
  | true =>
    by_cases h5 : grid_size = 5
    · subst h5
      constructor
      · rintro ⟨h1, h2⟩
        exfalso
        simp at h1 h2
        omega
      · rintro ⟨_, h5n, _⟩
        exact absurd rfl h5n
    · have hb : (grid_size == 5) = false := by simp [h5]
      constructor
      · rintro ⟨h1, h2⟩
        simp [hb] at h1 h2
        exact ⟨rfl, h5, by omega⟩
      · rintro ⟨_, _, heq⟩
        simp [hb]
        omega

/-- The claim of a capacity-error dichotomy over the `N is odd` condition is
false on the code: with the free flag, a 3×3 grid and a pool of 8 distinct
species the claimed precondition `P ≥ N² - 1` holds (and N is odd), yet
`generate_card` raises `IndexError` and returns no card. -/
theorem generate_card_capacity_claim_cex :
    (3 : Nat) % 2 = 1 ∧
    (3 : Nat) ^ 2 - 1 ≤ (poolN 8).length ∧
    idRandom.Lawful ∧
    (generate_card idRandom (poolN 8) 3 true (some 0) 0).1 = .error .indexError := by
  refine ⟨rfl, by decide, ⟨fun _ _ => List.Perm.refl _, fun _ _ => List.Perm.refl _⟩, rfl⟩

theorem generate_card_capacity_spec_witness :
    (isValueError (generate_card idRandom (poolN 8) 3 true (some 0) 0).1 = true ↔
      (poolN 8).length + (if true then 1 else 0) < 3 ^ 2) ∧
    (isOkE (generate_card idRandom (poolN 8) 3 true (some 0) 0).1 = true ↔
      (3 : Nat) ^ 2 - (if true && 3 == 5 then 1 else 0) ≤ (poolN 8).length) ∧
    ((generate_card idRandom (poolN 8) 3 true (some 0) 0).1 = .error PyErr.indexError ↔
      true = true ∧ (3 : Nat) ≠ 5 ∧ (poolN 8).length + 1 = 3 ^ 2) :=
  generate_card_capacity_spec idRandom
    ⟨fun _ _ => List.Perm.refl _, fun _ _ => List.Perm.refl _⟩ (poolN 8) 3 true (some 0) 0

/-- With a provided seed, `rnd = random.Random(seed)` depends only on the seed,
so the whole call is independent of ambient entropy. -/
theorem generate_card_world_irrelevant (M : RandomModel) (species_pool : List Species)
    (grid_size : Nat) (free_square : Bool) (s : Int) (w w' : Nat) :
    generate_card M species_pool grid_size free_square (some s) w =
      generate_card M species_pool grid_size free_square (some s) w' := rfl

/-- C7: given the same provided seed and the same species pool, two
`generate_card` calls agree completely — in particular the grids are
identical — whatever entropy the two runs would otherwise have drawn. -/
theorem generate_card_deterministic (M : RandomModel) (species_pool : List Species)
    (grid_size : Nat) (free_square : Bool) (s : Int) (w w' : Nat) :
    generate_card M species_pool grid_size free_square (some s) w =
      generate_card M species_pool grid_size free_square (some s) w' :=
  generate_card_world_irrelevant M species_pool grid_size free_square s w w'

theorem generate_cards_loop_pool (M : RandomModel) (species_pool : List Species)
    (grid_size : Nat) (free_square : Bool) (base_seed : Option Int) (world : Nat) :
    ∀ (is : List Nat) (acc : List BingoCard),
      (generate_cards_loop M species_pool grid_size free_square base_seed world acc is).2 =
        species_pool := by
  intro is
  induction is with
  | nil => intro acc; rfl
  | cons i is ih =>
    intro acc
    rw [generate_cards_loop]
    cases hc : generate_card M species_pool grid_size free_square
        (base_seed.map fun s => s + (i : Int)) (world + i) with
    | mk res pl =>
      cases res with
      | ok card => exact ih (acc ++ [card])
      | error e => rfl

/-- C10: neither `generate_card` nor `generate_cards` mutates the generator's
species pool — the shuffle acts on a copy, so the pool after any call
(successful or failing) is the list it started as. -/
theorem generator_pool_unchanged (M : RandomModel) (species_pool : List Species)
    (num_cards grid_size : Nat) (free_square : Bool) (seed base_seed : Option Int)
    (world : Nat) :
    (generate_card M species_pool grid_size free_square seed world).2 = species_pool ∧
    (generate_cards M species_pool num_cards grid_size free_square base_seed world).2 =
      species_pool := by
  constructor
  · rw [generate_card]
    by_cases hchk : grid_size ^ 2 >
        species_pool.length + (if free_square then 1 else 0)
    · rw [if_pos hchk]
    · rw [if_neg hchk, build_grid_eq2]
      cases hrows : buildRows (shuffledCells M species_pool grid_size free_square seed world)
          grid_size free_square 0 (List.range grid_size) with
      | ok p =>
        obtain ⟨g, i⟩ := p
        rfl
      | error e => rfl
  · exact generate_cards_loop_pool M species_pool grid_size free_square base_seed world
      (List.range num_cards) []

/-- Two flag values that agree on every centre test build identical rows. -/
theorem buildRowCells_congr (cells : List Species) (grid_size r : Nat) (f1 f2 : Bool)
    (cols : List Nat)
    (h : ∀ c ∈ cols, isCenterFree f1 grid_size r c = isCenterFree f2 grid_size r c) :
    ∀ idx, buildRowCells cells grid_size r f1 idx cols =
      buildRowCells cells grid_size r f2 idx cols := by
  induction cols with
  | nil => intro idx; rfl
  | cons c cs ih =>
    intro idx
    have ih' := ih fun c' hc' => h c' (by simp [hc'])
    rw [buildRowCells, buildRowCells, h c (by simp)]
    by_cases hc2 : isCenterFree f2 grid_size r c
    · rw [if_pos hc2, if_pos hc2, ih' idx]
    · rw [if_neg hc2, if_neg hc2]
      cases hcell : cells[idx]? with
      | some spc => rw [ih' (idx + 1)]
      | none => rfl

/-- Two flag values that agree on every centre test build identical grids. -/
theorem buildRows_congr (cells : List Species) (grid_size : Nat) (f1 f2 : Bool)
    (rows : List Nat)
    (h : ∀ r c : Nat, isCenterFree f1 grid_size r c = isCenterFree f2 grid_size r c) :
    ∀ idx, buildRows cells grid_size f1 idx rows =
      buildRows cells grid_size f2 idx rows := by
  induction rows with
  | nil => intro idx; rfl
  | cons r rs ih =>
    intro idx
    rw [buildRows, buildRows,
      buildRowCells_congr cells grid_size r f1 f2 (List.range grid_size)
        (fun c _ => h r c) idx]
    cases hrow : buildRowCells cells grid_size r f2 idx (List.range grid_size) with
    | ok p =>
      obtain ⟨row, idx₂⟩ := p
      dsimp only
      rw [ih idx₂]
    | error e => rfl

/-- C2 (amended): in every produced card the free marker appears exactly once,
at the exact centre, when the flag is set and the grid size is 5; for any
other size (odd sizes like 3, 7, 9 included) no free marker appears, and the
flag has no effect on the produced grid. -/
theorem generate_card_free_cell_spec (M : RandomModel) (hM : M.Lawful)
    (species_pool : List Species)
    (grid_size : Nat) (free_square : Bool) (seed : Option Int) (world : Nat) :
    (∀ card, (generate_card M species_pool grid_size free_square seed world).1 = .ok card →
      (free_square = true ∧ grid_size = 5 →
        cellAt card.grid (grid_size / 2) (grid_size / 2) = some .free ∧
          countFree card.grid = 1) ∧
      (¬(free_square = true ∧ grid_size = 5) → countFree card.grid = 0)) ∧
    (grid_size ≠ 5 →
      ((generate_card M species_pool grid_size true seed world).1.toOption.map
        BingoCard.grid) =
      ((generate_card M species_pool grid_size false seed world).1.toOption.map
        BingoCard.grid)) := by
  constructor
  · intro card hok
    obtain ⟨idxf, hrows, _, _, _⟩ :=
      generate_card_ok_inv M species_pool grid_size free_square seed world card hok
    obtain ⟨_, _, _, _, hcount, hprov⟩ :=
      buildRows_ok_spec _ grid_size free_square (List.range grid_size) 0
        card.grid idxf hrows
    constructor
    · rintro ⟨hf, h5⟩
      subst hf; subst h5
      constructor
      · obtain ⟨idx₀, row, idx₁, hg, hrc⟩ := hprov 2 2 (by simp)
        have hfree := (buildRowCells_free_pos _ 5 2 true (List.range 5)
          idx₀ row idx₁ hrc 2).mpr ⟨2, by simp, by decide⟩
        show cellAt card.grid 2 2 = some .free
        rw [cellAt, hg]
        simpa using hfree
      · rw [hcount]
        decide
    · intro hnot
      have hb : (free_square && grid_size == 5) = false := by
        cases free_square with
        | false => rfl
        | true =>
          have h5 : grid_size ≠ 5 := fun h => hnot ⟨rfl, h⟩
          simp [h5]
      rw [hcount]
      apply List.sum_eq_zero
      intro x hx
      obtain ⟨r, _, hr⟩ := List.mem_map.mp hx
      rw [← hr]
      rw [List.countP_eq_zero]
      intro c _
      simp [isCenterFree, hb]
  · intro h5
    have hb5 : (grid_size == 5) = false := by simp [h5]
    have hcells : shuffledCells M species_pool grid_size true seed world =
        shuffledCells M species_pool grid_size false seed world := by
      simp [shuffledCells, hb5]
    have hcongr : ∀ (r c : Nat),
        isCenterFree true grid_size r c = isCenterFree false grid_size r c := by
      intro r c
      simp [isCenterFree, hb5]
    have hrows_eq : buildRows (shuffledCells M species_pool grid_size true seed world)
          grid_size true 0 (List.range grid_size) =
        buildRows (shuffledCells M species_pool grid_size false seed world)
          grid_size false 0 (List.range grid_size) := by
      rw [hcells]
      exact buildRows_congr _ grid_size true false (List.range grid_size) hcongr 0
    have hmk_eq : ∀ (g : BingoGrid),
        (BingoCard.mk_validated g grid_size true seed).toOption.map BingoCard.grid =
        (BingoCard.mk_validated g grid_size false seed).toOption.map BingoCard.grid := by
      intro g
      rw [BingoCard.mk_validated, BingoCard.mk_validated]
      by_cases h1 : g.length ≠ grid_size
      · rw [if_pos h1, if_pos h1]
      · rw [if_neg h1, if_neg h1]
        by_cases h2 : g.any (fun row => row.length ≠ grid_size)
        · rw [if_pos h2, if_pos h2]
        · rw [if_neg h2, if_neg h2]
          rfl
    by_cases hchk1 : grid_size ^ 2 > species_pool.length + (if true then 1 else 0)
    · have hchk0 : grid_size ^ 2 >
          species_pool.length + (if false then 1 else 0) := by
        simp at hchk1 ⊢
        omega
      rw [generate_card, generate_card, if_pos hchk1, if_pos hchk0]
    · by_cases hchk0 : grid_size ^ 2 > species_pool.length + (if false then 1 else 0)
      · -- gap: the flagged call passes the check but runs out of cells
        have h0 : species_pool.length < grid_size ^ 2 := by simpa using hchk0
        have hnotok : isOkE (buildRows
            (shuffledCells M species_pool grid_size true seed world)
            grid_size true 0 (List.range grid_size)) = false := by
          cases hv : isOkE (buildRows
              (shuffledCells M species_pool grid_size true seed world)
              grid_size true 0 (List.range grid_size)) with
          | false => rfl
          | true =>
            exfalso
            have hbound := (buildRows_isOk _ grid_size true (List.range grid_size) 0
              (Nat.zero_le _)).mp hv
            rw [gridSlots_range,
              shuffledCells_length M hM species_pool grid_size true seed world,
              Nat.zero_add] at hbound
            have hle := le_trans hbound (min_le_right _ _)
            simp only [Bool.true_and, hb5] at hle
            simp at hle
            omega
        obtain ⟨er, her⟩ := isOkE_error hnotok
        rw [generate_card, generate_card, if_neg hchk1, if_pos hchk0,
          build_grid_eq2, her]
        rfl
      · rw [generate_card, generate_card, if_neg hchk1, if_neg hchk0,
          build_grid_eq2, build_grid_eq2, hrows_eq]
        cases hrows : buildRows (shuffledCells M species_pool grid_size false seed world)
            grid_size false 0 (List.range grid_size) with
        | ok p =>
          obtain ⟨g, i⟩ := p
          dsimp only
          exact hmk_eq g
        | error e => rfl

/-- The claim that an odd grid dimension carries the free marker is false on
the code: a 3×3 card generated with the free flag set has a species — not the
free marker — at its centre (and no free marker anywhere). -/
theorem generate_card_free_cell_claim_cex :
    (3 : Nat) % 2 = 1 ∧
    ((generate_card idRandom (poolN 9) 3 true (some 0) 0).1.toOption.map
      (fun c => cellAt c.grid 1 1)) = some (some (.species (sp 4))) ∧
    ((generate_card idRandom (poolN 9) 3 true (some 0) 0).1.toOption.map
      (fun c => countFree c.grid)) = some 0 := by
  exact ⟨rfl, rfl, rfl⟩

theorem generate_card_free_cell_spec_witness :
    ∃ card, (generate_card idRandom (poolN 24) 5 true (some 0) 0).1 = .ok card ∧
      cellAt card.grid (5 / 2) (5 / 2) = some .free ∧ countFree card.grid = 1 := by
  obtain ⟨card, hcard⟩ :=
    isOkE_exists (e := (generate_card idRandom (poolN 24) 5 true (some 0) 0).1) rfl
  exact ⟨card, hcard,
    ((generate_card_free_cell_spec idRandom
      ⟨fun _ _ => List.Perm.refl _, fun _ _ => List.Perm.refl _⟩
      (poolN 24) 5 true (some 0) 0).1 card hcard).1 ⟨rfl, rfl⟩⟩

/-- C6: when the species pool is pairwise distinct, no two cells of a produced
card reference the same species: the row-major species sequence of the grid is
duplicate-free (it is a prefix of a shuffle of the pool). -/
theorem generate_card_no_reuse (M : RandomModel) (hM : M.Lawful)
    (species_pool : List Species) (hnd : species_pool.Nodup)
    (grid_size : Nat) (free_square : Bool) (seed : Option Int) (world : Nat)
    (card : BingoCard)
    (hok : (generate_card M species_pool grid_size free_square seed world).1 = .ok card) :
    (gridSpecies card.grid).Nodup := by
  obtain ⟨idxf, hrows, _, _, _⟩ :=
    generate_card_ok_inv M species_pool grid_size free_square seed world card hok
  obtain ⟨_, _, _, hspec, _, _⟩ :=
    buildRows_ok_spec _ grid_size free_square (List.range grid_size) 0
      card.grid idxf hrows
  rw [List.drop_zero] at hspec
  rw [hspec]
  have h1 : (M.shuffle seed world species_pool).Nodup :=
    ((M.shuffle_perm hM seed world species_pool).nodup_iff).mpr hnd
  have h2 : ((M.shuffle seed world species_pool).take
      (grid_size ^ 2 - (if free_square && grid_size == 5 then 1 else 0))).Nodup :=
    h1.sublist (List.take_sublist _ _)
  exact h2.sublist (List.take_sublist _ _)

theorem generate_card_no_reuse_witness :
    ∃ card, (generate_card idRandom (poolN 4) 2 false (some 0) 0).1 = .ok card ∧
      (gridSpecies card.grid).Nodup := by
  obtain ⟨card, hcard⟩ :=
    isOkE_exists (e := (generate_card idRandom (poolN 4) 2 false (some 0) 0).1) rfl
  exact ⟨card, hcard,
    generate_card_no_reuse idRandom
      ⟨fun _ _ => List.Perm.refl _, fun _ _ => List.Perm.refl _⟩
      (poolN 4) (by decide) 2 false (some 0) 0 card hcard⟩

/-- Successful batch loop runs extend the accumulator, and the card appended
for loop index `i` is the one `generate_card` produces for seed
`base_seed + i`. -/
theorem generate_cards_loop_ok_spec (M : RandomModel) (species_pool : List Species)
    (grid_size : Nat) (free_square : Bool) (base_seed : Option Int) (world : Nat) :
    ∀ (is : List Nat) (acc cards : List BingoCard),
      (generate_cards_loop M species_pool grid_size free_square base_seed world
        acc is).1 = .ok cards →
      cards.length = acc.length + is.length ∧
      (∀ j : Nat, j < acc.length → cards[j]? = acc[j]?) ∧
      (∀ j i : Nat, is[j]? = some i → ∃ card, cards[acc.length + j]? = some card ∧
        (generate_card M species_pool grid_size free_square
          (base_seed.map fun s => s + (i : Int)) (world + i)).1 = .ok card) := by
  intro is
  induction is with
  | nil =>
    intro acc cards h
    simp only [generate_cards_loop, Except.ok.injEq] at h
    subst h
    exact ⟨by simp, fun j _ => rfl, by simp⟩
  | cons i is ih =>
    intro acc cards h
    rw [generate_cards_loop] at h
    cases hc : generate_card M species_pool grid_size free_square
        (base_seed.map fun s => s + (i : Int)) (world + i) with
    | mk res pl =>
      rw [hc] at h
      cases res with
      | ok card =>
        obtain ⟨hl, hpre, hrest⟩ := ih (acc ++ [card]) cards h
        have hlen1 : (acc ++ [card]).length = acc.length + 1 := by simp
        refine ⟨?_, ?_, ?_⟩
        · rw [hl, hlen1, List.length_cons]
          omega
        · intro j hj
          rw [hpre j (by rw [hlen1]; omega)]
          exact List.getElem?_append_left hj
        · intro j i' hj
          cases j with
          | zero =>
            simp only [List.getElem?_cons_zero, Option.some.injEq] at hj
            subst hj
            refine ⟨card, ?_, by rw [hc]⟩
            rw [Nat.add_zero, hpre acc.length (by rw [hlen1]; omega)]
            rw [List.getElem?_append_right (le_refl _)]
            simp
          | succ j' =>
            simp only [List.getElem?_cons_succ] at hj
            obtain ⟨card', hcs, hgen⟩ := hrest j' i' hj
            refine ⟨card', ?_, hgen⟩
            have hidx : acc.length + (j' + 1) = (acc ++ [card]).length + j' := by
              rw [hlen1]
              omega
            rw [hidx]
            exact hcs
      | error e =>
        exact absurd h (by simp)

/-- C3: a successful batch with a provided base seed `S` has exactly
`num_cards` cards, and its `i`-th card is the very card a lone
`generate_card` call with seed `S + i` returns (whatever entropy that call
would have had available). -/
theorem generate_cards_seed_index (M : RandomModel) (species_pool : List Species)
    (num_cards grid_size : Nat) (free_square : Bool) (S : Int) (world : Nat)
    (cards : List BingoCard)
    (h : (generate_cards M species_pool num_cards grid_size free_square
      (some S) world).1 = .ok cards) :
    cards.length = num_cards ∧
    ∀ i : Nat, i < num_cards → ∃ card, cards[i]? = some card ∧
      ∀ w' : Nat, (generate_card M species_pool grid_size free_square
        (some (S + (i : Int))) w').1 = .ok card := by
  rw [generate_cards] at h
  obtain ⟨hl, _, hidx⟩ := generate_cards_loop_ok_spec M species_pool grid_size
    free_square (some S) world (List.range num_cards) [] cards h
  constructor
  · simpa using hl
  · intro i hi
    obtain ⟨card, hc, hgen⟩ := hidx i i (by simp [List.getElem?_range hi])
    refine ⟨card, by simpa using hc, ?_⟩
    intro w'
    rw [generate_card_world_irrelevant M species_pool grid_size free_square
      (S + (i : Int)) w' (world + i)]
    simpa using hgen

theorem generate_cards_seed_index_witness :
    ∃ cards card,
      (generate_cards idRandom (poolN 1) 2 1 false (some 0) 0).1 = .ok cards ∧
      cards[1]? = some card ∧
      (generate_card idRandom (poolN 1) 1 false (some ((0 : Int) + (1 : Nat))) 5).1 =
        .ok card := by
  obtain ⟨cards, hcards⟩ :=
    isOkE_exists (e := (generate_cards idRandom (poolN 1) 2 1 false (some 0) 0).1) rfl
  obtain ⟨_, hidx⟩ := generate_cards_seed_index idRandom (poolN 1) 2 1 false 0 0 cards hcards
  obtain ⟨card, hc, hgen⟩ := hidx 1 (by decide)
  exact ⟨cards, card, hcards, hc, hgen 5⟩

/-! ## PDF renderer layout model (`pdf_renderer.py`, `config.py`)

Float arithmetic is modelled over `ℚ`; the ReportLab `Paragraph.wrap`
measurement is an oracle parameter `wrap` (text size, content, width →
measured height), since text metrics live in the rendering library. -/

/-- `reportlab.lib.units.inch` in points. -/
def inch : ℚ := 72

/-- `config.PAGE_HEIGHT = 11 * inch`. -/
def PAGE_HEIGHT : ℚ := 11 * inch

/-- `config.TOP_BOTTOM_MARGIN = 1 * inch`. -/
def TOP_BOTTOM_MARGIN : ℚ := 1 * inch

/-- `config.USABLE_HEIGHT`: page height minus top/bottom margins minus title
space. -/
def USABLE_HEIGHT : ℚ := PAGE_HEIGHT - 2 * TOP_BOTTOM_MARGIN - (1 / 2) * inch

/-- One row of `config.GRID_SCALING`. -/
structure GridScale where
  cell_size : ℚ
  photo_size : ℚ
  padding : ℚ
  text_size : ℚ
deriving DecidableEq, Repr

/-- The `config.GRID_SCALING[5]` entry, also the `.get` default. -/
def gridScale5 : GridScale :=
  { cell_size := 14 / 10 * inch, photo_size := 11 / 10 * inch,
    padding := 3, text_size := 8 }

/-- `config.GRID_SCALING` as a partial map on grid sizes. -/
def GRID_SCALING : Nat → Option GridScale
  | 3 => some { cell_size := 23 / 10 * inch, photo_size := 18 / 10 * inch,
                padding := 4, text_size := 10 }
  | 5 => some gridScale5
  | 7 => some { cell_size := 1 * inch, photo_size := 8 / 10 * inch,
                padding := 2, text_size := 7 }
  | 9 => some { cell_size := 8 / 10 * inch, photo_size := 6 / 10 * inch,
                padding := 1, text_size := 6 }
  | _ => none

/-- `GRID_SCALING.get(size, GRID_SCALING[5])`. -/
def gridScalingGet (n : Nat) : GridScale :=
  match GRID_SCALING n with
  | some s => s
  | none => gridScale5

/-- The `name_parts` list shared by `_calculate_text_height` and
`_create_cell_content`: common name if shown and truthy, then the scientific
name (italicised when the common name is shown). -/
def name_parts (sp : Species) (common_on sci_on : Bool) : List String :=
  (if common_on && sp.common_name ≠ "" then [sp.common_name] else []) ++
  (if sci_on && sp.scientific_name ≠ "" then
    [if common_on then "<i>" ++ sp.scientific_name ++ "</i>" else sp.scientific_name]
   else [])

/-- Embeds `PDFRenderer._calculate_text_height`: zero when no name is shown or
no parts survive, else the wrapped paragraph's measured height. -/
def calculate_text_height (wrap : ℚ → String → ℚ → ℚ) (sp : Species)
    (common_on sci_on : Bool) (text_size cell_width : ℚ) : ℚ :=
  if !(common_on || sci_on) then 0
  else
    let parts := name_parts sp common_on sci_on
    if parts = [] then 0
    else wrap text_size (String.intercalate "<br/>" parts) cell_width

/-- One row's height in `_calculate_dynamic_row_heights`: the maximum over the
row's species cells of photo allotment + measured text height + twice the
padding (+ a 4pt photo/text gap), floored at the cell size; FREE cells are
skipped. -/
def row_height (wrap : ℚ → String → ℚ → ℚ) (scal : GridScale)
    (photo_on common_on sci_on : Bool) (row : List BingoCell) : ℚ :=
  row.foldl
    (fun m cell =>
      match cell with
      | .free => m
      | .species sp =>
        let text_height := calculate_text_height wrap sp common_on sci_on
          scal.text_size (scal.cell_size - 2 * scal.padding)
        let total := scal.photo_size + text_height + 2 * scal.padding +
          (if photo_on && text_height > 0 then 4 else 0)
        max m total)
    scal.cell_size

/-- Embeds `PDFRenderer._calculate_dynamic_row_heights`: per-row heights, then
a uniform scale-down when the total exceeds the available height. -/
def calculate_dynamic_row_heights (wrap : ℚ → String → ℚ → ℚ) (card : BingoCard)
    (photo_on common_on sci_on : Bool) (grid_size : Nat) : List ℚ :=
  let scal := gridScalingGet grid_size
  let row_heights := card.grid.map (row_height wrap scal photo_on common_on sci_on)
  let total_height := row_heights.sum
  let title_space := 7 / 10 * inch
  let available_height := USABLE_HEIGHT - title_space
  if total_height > available_height then
    row_heights.map (fun h => h * (available_height / total_height))
  else
    row_heights

theorem sum_map_mul (l : List ℚ) (k : ℚ) :
    (l.map (fun h => h * k)).sum = l.sum * k := by
  induction l with
  | nil => simp
  | cons a l ih => simp [ih, add_mul]

/-- C4: when the computed row heights sum to more than the usable page height
(page height minus margins minus title allowance), every row is multiplied by
the single factor `available / total`, and the scaled heights sum to the
available height exactly; when the sum already fits, the heights are returned
unchanged. -/
theorem row_heights_scaling (wrap : ℚ → String → ℚ → ℚ) (card : BingoCard)
    (photo_on common_on sci_on : Bool) (grid_size : Nat) :
    ((card.grid.map (row_height wrap (gridScalingGet grid_size)
        photo_on common_on sci_on)).sum > USABLE_HEIGHT - 7 / 10 * inch →
      calculate_dynamic_row_heights wrap card photo_on common_on sci_on grid_size =
        (card.grid.map (row_height wrap (gridScalingGet grid_size)
          photo_on common_on sci_on)).map
          (fun h => h * ((USABLE_HEIGHT - 7 / 10 * inch) /
            (card.grid.map (row_height wrap (gridScalingGet grid_size)
              photo_on common_on sci_on)).sum)) ∧
      (calculate_dynamic_row_heights wrap card photo_on common_on sci_on
        grid_size).sum = USABLE_HEIGHT - 7 / 10 * inch) ∧
    ((card.grid.map (row_height wrap (gridScalingGet grid_size)
        photo_on common_on sci_on)).sum ≤ USABLE_HEIGHT - 7 / 10 * inch →
      calculate_dynamic_row_heights wrap card photo_on common_on sci_on grid_size =
        card.grid.map (row_height wrap (gridScalingGet grid_size)
          photo_on common_on sci_on)) := by
  have havail : (0 : ℚ) < USABLE_HEIGHT - 7 / 10 * inch := by
    norm_num [USABLE_HEIGHT, PAGE_HEIGHT, TOP_BOTTOM_MARGIN, inch]
  constructor
  · intro hgt
    have hres : calculate_dynamic_row_heights wrap card photo_on common_on sci_on
        grid_size = (card.grid.map (row_height wrap (gridScalingGet grid_size)
          photo_on common_on sci_on)).map
          (fun h => h * ((USABLE_HEIGHT - 7 / 10 * inch) /
            (card.grid.map (row_height wrap (gridScalingGet grid_size)
              photo_on common_on sci_on)).sum)) := by
      rw [calculate_dynamic_row_heights, if_pos hgt]
    refine ⟨hres, ?_⟩
    rw [hres, sum_map_mul]
    have hne : (card.grid.map (row_height wrap (gridScalingGet grid_size)
        photo_on common_on sci_on)).sum ≠ 0 := by
      intro h0
      rw [h0] at hgt
      exact absurd hgt (by linarith)
    rw [mul_div_cancel₀ _ hne]
  · intro hle
    rw [calculate_dynamic_row_heights, if_neg (by exact not_lt.mpr hle)]

/-- A `wrap` oracle reporting a huge fixed text height, to exhibit a run that
overflows the page. -/
def constWrap : ℚ → String → ℚ → ℚ := fun _ _ _ => 1000

/-- A one-cell card used in concrete renderer runs. -/
def cardW : BingoCard :=
  { grid := [[.species (sp 0)]], size := 1, has_free_square := false, seed := none }

theorem row_heights_scaling_witness :
    ((cardW.grid.map (row_height constWrap (gridScalingGet 1) true true true)).sum >
      USABLE_HEIGHT - 7 / 10 * inch) ∧
    (calculate_dynamic_row_heights constWrap cardW true true true 1).sum =
      USABLE_HEIGHT - 7 / 10 * inch := by
  have h : (cardW.grid.map (row_height constWrap (gridScalingGet 1) true true true)).sum >
      USABLE_HEIGHT - 7 / 10 * inch := by
    norm_num [cardW, row_height, gridScalingGet, GRID_SCALING, gridScale5,
      calculate_text_height, name_parts, constWrap, sp, USABLE_HEIGHT, PAGE_HEIGHT,
      TOP_BOTTOM_MARGIN, inch]
    simp only [String.reduceEq, false_and, if_false]
    norm_num
  exact ⟨h, ((row_heights_scaling constWrap cardW true true true 1).1 h).2⟩

/-! ## iNaturalist client model (`inaturalist_client.py`, `config.py`)

The upstream JSON records are embedded as structures with `Option` fields for
absent or null keys; the HTTP layer itself is external (a whole-query failure
returns `[]` before this filtering loop runs). -/

/-- `config.ALLOWED_LICENSES`. -/
def ALLOWED_LICENSES : List String :=
  ["cc0", "cc-by", "cc-by-nc", "cc-by-sa", "cc-by-nc-sa"]

/-- `config.SPECIES_RANK_LEVELS = set(range(10, 16))`. -/
def SPECIES_RANK_LEVELS : List Nat := List.range' 10 6

/-- The `default_photo` sub-object of a taxon record. -/
structure DefaultPhoto where
  license_code : Option String
  square_url : Option String
  medium_url : Option String
deriving DecidableEq, Repr

/-- The `taxon` sub-object of a species-count record. -/
structure TaxonData where
  id : Int
  rank_level : Option Nat
  default_photo : Option DefaultPhoto
  preferred_common_name : Option String
  name : Option String
deriving DecidableEq, Repr

/-- One record of the `species_counts` response's `results` array. -/
structure ObsRecord where
  taxon : Option TaxonData
deriving DecidableEq, Repr

/-- Python `x or y` on an optional string (falsy = absent or empty). -/
def pyOr (a : Option String) (b : String) : String :=
  match a with
  | some s => if s = "" then b else s
  | none => b

/-- The `default_photo or \x7b\x7d` dictionary of the loop body. -/
def photoOf (t : TaxonData) : DefaultPhoto :=
  t.default_photo.getD ⟨none, none, none⟩

/-- Python `str.lower()` restricted to its ASCII case fold (license codes are
ASCII). -/
def pyLower (s : String) : String := ⟨s.data.map Char.toLower⟩

/-- The license test of the loop body:
`license_code and license_code.lower() not in ALLOWED_LICENSES`. -/
def licenseDisallowed (t : TaxonData) : Bool :=
  match (photoOf t).license_code with
  | none => false
  | some lc => if lc ≠ "" ∧ pyLower lc ∉ ALLOWED_LICENSES then true else false

/-- One iteration of the filtering loop of `fetch_top_species`: `none` when the
record is skipped by a `continue`, else the `Species` appended. -/
def recordSpecies (r : ObsRecord) : Option Species :=
  match r.taxon with
  | none => none
  | some t =>
    match t.rank_level with
    | none => none
    | some rl =>
      if rl = 0 then none
      else if rl ∉ SPECIES_RANK_LEVELS then none
      else if licenseDisallowed t then none
      else some
        { taxon_id := t.id,
          common_name := t.preferred_common_name.getD "",
          scientific_name := t.name.getD "",
          image_url := pyOr (photoOf t).square_url ((photoOf t).medium_url.getD "") }

/-- The `for result in results` loop with its `len(species) >= top_n` break. -/
def fetchLoop (top_n : Nat) : List ObsRecord → List Species → List Species
  | [], acc => acc
  | r :: rs, acc =>
    if top_n ≤ acc.length then acc
    else
      match recordSpecies r with
      | none => fetchLoop top_n rs acc
      | some sp => fetchLoop top_n rs (acc ++ [sp])

/-- Embeds the filtering part of `INaturalistClient.fetch_top_species` applied
to a decoded `results` array: the loop followed by `species[:top_n]`. -/
def fetch_top_species (top_n : Nat) (results : List ObsRecord) : List Species :=
  (fetchLoop top_n results []).take top_n

theorem fetchLoop_saturated (top_n : Nat) :
    ∀ (rs : List ObsRecord) (acc : List Species), top_n ≤ acc.length →
      fetchLoop top_n rs acc = acc := by
  intro rs
  induction rs with
  | nil => intro acc _; rfl
  | cons r rs ih =>
    intro acc hle
    rw [fetchLoop, if_pos hle]

/-- A record the loop skips contributes nothing, wherever it sits. -/
theorem fetchLoop_skip (top_n : Nat) (r : ObsRecord) (h : recordSpecies r = none) :
    ∀ (rs : List ObsRecord) (acc : List Species),
      fetchLoop top_n (r :: rs) acc = fetchLoop top_n rs acc := by
  intro rs acc
  by_cases hsat : top_n ≤ acc.length
  · rw [fetchLoop, if_pos hsat, fetchLoop_saturated top_n rs acc hsat]
  · rw [fetchLoop, if_neg hsat, h]

/-- Everything the loop returns is either carried in from the accumulator or
produced from some record in the list. -/
theorem fetchLoop_mem (top_n : Nat) :
    ∀ (rs : List ObsRecord) (acc : List Species) (sp : Species),
      sp ∈ fetchLoop top_n rs acc →
      sp ∈ acc ∨ ∃ r ∈ rs, recordSpecies r = some sp := by
  intro rs
  induction rs with
  | nil =>
    intro acc sp h
    exact Or.inl h
  | cons r rs ih =>
    intro acc sp h
    rw [fetchLoop] at h
    by_cases hsat : top_n ≤ acc.length
    · rw [if_pos hsat] at h
      exact Or.inl h
    · rw [if_neg hsat] at h
      cases hr : recordSpecies r with
      | none =>
        rw [hr] at h
        rcases ih acc sp h with hacc | ⟨r', hmem, hr'⟩
        · exact Or.inl hacc
        · exact Or.inr ⟨r', by simp [hmem], hr'⟩
      | some sp' =>
        rw [hr] at h
        rcases ih (acc ++ [sp']) sp h with hacc | ⟨r', hmem, hr'⟩
        · rcases List.mem_append.mp hacc with h1 | h2
          · exact Or.inl h1
          · have : sp = sp' := by simpa using h2
            exact Or.inr ⟨r, by simp, by rw [hr, this]⟩
        · exact Or.inr ⟨r', by simp [hmem], hr'⟩

/-- An accepted record has a taxon whose rank level sits in the 10–15 band and
whose photo license, when present and non-empty, is in the allow-list. -/
theorem recordSpecies_filters (r : ObsRecord) (sp : Species)
    (h : recordSpecies r = some sp) :
    ∃ t, r.taxon = some t ∧
      (∃ rl, t.rank_level = some rl ∧ 10 ≤ rl ∧ rl ≤ 15) ∧
      licenseDisallowed t = false ∧
      (∀ lc, (photoOf t).license_code = some lc → lc ≠ "" →
        pyLower lc ∈ ALLOWED_LICENSES) := by
  rw [recordSpecies] at h
  cases ht : r.taxon with
  | none => rw [ht] at h; exact absurd h (by simp)
  | some t =>
    rw [ht] at h
    dsimp only at h
    cases hrl : t.rank_level with
    | none => rw [hrl] at h; exact absurd h (by simp)
    | some rl =>
      rw [hrl] at h
      dsimp only at h
      by_cases h0 : rl = 0
      · rw [if_pos h0] at h; exact absurd h (by simp)
      · rw [if_neg h0] at h
        by_cases hband : rl ∉ SPECIES_RANK_LEVELS
        · rw [if_pos hband] at h; exact absurd h (by simp)
        · rw [if_neg hband] at h
          by_cases hlic : licenseDisallowed t = true
          · rw [if_pos hlic] at h; exact absurd h (by simp)
          · have hlicf : licenseDisallowed t = false := by simpa using hlic
            have hmem : rl ∈ SPECIES_RANK_LEVELS := not_not.mp hband
            have hbounds : 10 ≤ rl ∧ rl ≤ 15 := by
              rw [SPECIES_RANK_LEVELS] at hmem
              have := List.mem_range'_1.mp hmem
              omega
            refine ⟨t, rfl, ⟨rl, hrl, hbounds.1, hbounds.2⟩, hlicf, ?_⟩
            intro lc hlc hne
            by_contra hnot
            have hlt : licenseDisallowed t = true := by
              simp only [licenseDisallowed, hlc]
              rw [if_pos ⟨hne, hnot⟩]
            rw [hlt] at hlicf
            exact absurd hlicf (by simp)

/-- C5: every species `fetch_top_species` returns is produced from some
upstream record whose taxon passes the rank-band (10–15) and license filters;
a record with no taxon, no rank level, or a disallowed license is skipped
without error — it contributes nothing wherever it occurs in the stream; and
the returned list never exceeds `top_n` entries. -/
theorem fetch_top_species_spec (top_n : Nat) (results : List ObsRecord) :
    (∀ sp ∈ fetch_top_species top_n results,
      ∃ r ∈ results, recordSpecies r = some sp ∧
        ∃ t, r.taxon = some t ∧
          (∃ rl, t.rank_level = some rl ∧ 10 ≤ rl ∧ rl ≤ 15) ∧
          (∀ lc, (photoOf t).license_code = some lc → lc ≠ "" →
            pyLower lc ∈ ALLOWED_LICENSES)) ∧
    (∀ r : ObsRecord,
      (r.taxon = none ∨ (∃ t, r.taxon = some t ∧ t.rank_level = none) ∨
        (∃ t, r.taxon = some t ∧ licenseDisallowed t = true)) →
      ∀ (rs : List ObsRecord) (acc : List Species),
        fetchLoop top_n (r :: rs) acc = fetchLoop top_n rs acc) ∧
    (fetch_top_species top_n results).length ≤ top_n := by
  refine ⟨?_, ?_, ?_⟩
  · intro sp hmem
    have hmem' : sp ∈ fetchLoop top_n results [] :=
      List.mem_of_mem_take hmem
    rcases fetchLoop_mem top_n results [] sp hmem' with hacc | ⟨r, hr, hrs⟩
    · exact absurd hacc (by simp)
    · obtain ⟨t, ht, hband, _, hlic⟩ := recordSpecies_filters r sp hrs
      exact ⟨r, hr, hrs, t, ht, hband, hlic⟩
  · intro r hbad rs acc
    apply fetchLoop_skip
    rcases hbad with hnone | ⟨t, ht, hrl⟩ | ⟨t, ht, hlic⟩
    · rw [recordSpecies, hnone]
    · rw [recordSpecies, ht]
      dsimp only
      rw [hrl]
    · rw [recordSpecies, ht]
      dsimp only
      cases hrl : t.rank_level with
      | none => rfl
      | some rl =>
        dsimp only
        by_cases h0 : rl = 0
        · rw [if_pos h0]
        · rw [if_neg h0]
          by_cases hband : rl ∉ SPECIES_RANK_LEVELS
          · rw [if_pos hband]
          · rw [if_neg hband, if_pos hlic]
  · rw [fetch_top_species]
    rw [List.length_take]
    exact min_le_left _ _

/-- A record whose taxon passes every filter. -/
def goodRecord : ObsRecord :=
  ⟨some ⟨7, some 10, some ⟨some "cc0", some "sq", some "md"⟩, some "Oak", some "Quercus"⟩⟩

/-- A record excluded for its all-rights-reserved license. -/
def badLicenseRecord : ObsRecord :=
  ⟨some ⟨8, some 10, some ⟨some "All-Rights-Reserved", some "sq", some "md"⟩,
    none, some "Pinus"⟩⟩

theorem fetch_top_species_spec_witness :
    (∃ r ∈ [badLicenseRecord, goodRecord],
      recordSpecies r = some ⟨7, "Oak", "Quercus", "sq"⟩ ∧
      ∃ t, r.taxon = some t ∧
        (∃ rl, t.rank_level = some rl ∧ 10 ≤ rl ∧ rl ≤ 15) ∧
        (∀ lc, (photoOf t).license_code = some lc → lc ≠ "" →
          pyLower lc ∈ ALLOWED_LICENSES)) ∧
    fetchLoop 1 [badLicenseRecord, goodRecord] [] =
      fetchLoop 1 [goodRecord] [] ∧
    (fetch_top_species 1 [badLicenseRecord, goodRecord]).length ≤ 1 := by
  obtain ⟨ha, hb, hc⟩ := fetch_top_species_spec 1 [badLicenseRecord, goodRecord]
  refine ⟨?_, ?_, hc⟩
  · apply ha
    have he : fetch_top_species 1 [badLicenseRecord, goodRecord] =
        [⟨7, "Oak", "Quercus", "sq"⟩] := by decide
    rw [he]
    exact List.mem_singleton.mpr rfl
  · exact hb badLicenseRecord
      (Or.inr (Or.inr ⟨⟨8, some 10, some ⟨some "All-Rights-Reserved", some "sq",
        some "md"⟩, none, some "Pinus"⟩, rfl, by decide⟩)) [goodRecord] []

/-! ## Cell content (`PDFRenderer._create_cell_content`)

Photo acquisition (the HTTP download, the decode/crop in
`process_image_for_bingo`, and the ReportLab `Image` construction, all inside
one `try`) is modelled as a function `acquire` from the URL to `Except`:
any failure of any stage is the `error` case the `except` swallows. -/

/-- A ReportLab flowable produced for a cell: the (processed) photo or the
name paragraph. -/
inductive FlowElem where
  | image : List Nat → FlowElem
  | paragraph : String → ℚ → FlowElem
deriving DecidableEq, Repr

/-- Embeds `PDFRenderer._create_cell_content`. -/
def create_cell_content (acquire : String → Except Unit (List Nat))
    (sp : Species) (photo_on common_on sci_on : Bool) (grid_size : Nat) :
    List FlowElem :=
  let scal := gridScalingGet grid_size
  let flow₀ : List FlowElem :=
    if photo_on && sp.image_url ≠ "" then
      match acquire sp.image_url with
      | .ok bytes => [.image bytes]
      | .error _ => []
    else []
  let parts := name_parts sp common_on sci_on
  flow₀ ++
    (if parts ≠ [] then
      [.paragraph (String.intercalate "<br/>" parts) scal.text_size]
     else [])

/-- C8: when acquiring the photo fails (for any reason inside the `try`), the
cell's content is exactly what a photo-less cell gets: the photo is omitted,
the species-name paragraph is still present whenever any name is shown, no
image element appears, and the function returns normally — the failure does
not escape the cell. -/
theorem create_cell_content_photo_failure (acquire : String → Except Unit (List Nat))
    (sp : Species) (common_on sci_on : Bool) (grid_size : Nat)
    (hfail : acquire sp.image_url = .error ()) :
    create_cell_content acquire sp true common_on sci_on grid_size =
      create_cell_content acquire sp false common_on sci_on grid_size ∧
    (∀ e ∈ create_cell_content acquire sp true common_on sci_on grid_size,
      ∃ t fs, e = .paragraph t fs) ∧
    (name_parts sp common_on sci_on ≠ [] →
      FlowElem.paragraph (String.intercalate "<br/>" (name_parts sp common_on sci_on))
        (gridScalingGet grid_size).text_size ∈
        create_cell_content acquire sp true common_on sci_on grid_size) := by
  have hflow : create_cell_content acquire sp true common_on sci_on grid_size =
      (if name_parts sp common_on sci_on ≠ [] then
        [FlowElem.paragraph (String.intercalate "<br/>" (name_parts sp common_on sci_on))
          (gridScalingGet grid_size).text_size]
       else []) := by
    rw [create_cell_content]
    by_cases hurl : sp.image_url ≠ ""
    · simp [hurl, hfail]
    · have hurl' : sp.image_url = "" := not_not.mp hurl
      simp [hurl']
  have hflow' : create_cell_content acquire sp false common_on sci_on grid_size =
      (if name_parts sp common_on sci_on ≠ [] then
        [FlowElem.paragraph (String.intercalate "<br/>" (name_parts sp common_on sci_on))
          (gridScalingGet grid_size).text_size]
       else []) := by
    rw [create_cell_content]
    simp
  refine ⟨by rw [hflow, hflow'], ?_, ?_⟩
  · intro e he
    rw [hflow] at he
    by_cases hp : name_parts sp common_on sci_on ≠ []
    · rw [if_pos hp] at he
      have : e = FlowElem.paragraph
          (String.intercalate "<br/>" (name_parts sp common_on sci_on))
          (gridScalingGet grid_size).text_size := by simpa using he
      exact ⟨_, _, this⟩
    · rw [if_neg hp] at he
      exact absurd he (by simp)
  · intro hp
    rw [hflow, if_pos hp]
    simp

/-- A photo source for which every download fails. -/
def failAcquire : String → Except Unit (List Nat) := fun _ => .error ()

theorem create_cell_content_photo_failure_witness :
    (create_cell_content failAcquire (sp 0) true true true 5 =
      create_cell_content failAcquire (sp 0) false true true 5) ∧
    (∀ e ∈ create_cell_content failAcquire (sp 0) true true true 5,
      ∃ t fs, e = .paragraph t fs) ∧
    (name_parts (sp 0) true true ≠ [] →
      FlowElem.paragraph (String.intercalate "<br/>" (name_parts (sp 0) true true))
        (gridScalingGet 5).text_size ∈
        create_cell_content failAcquire (sp 0) true true true 5) :=
  create_cell_content_photo_failure failAcquire (sp 0) true true 5 rfl

/-! ## Image processor (`image_processor.py`)

A decoded PIL image is its dimensions, mode and an (RGB-rendered) pixel
function; decoding raw bytes and JPEG serialisation live in PIL and stay
outside the model, which captures the crop geometry and the save
parameters. -/

/-- A decoded image. -/
structure PILImage where
  width : Nat
  height : Nat
  mode : String
  px : Nat → Nat → Nat × Nat × Nat

/-- `img.convert('RGB')`: same dimensions and (RGB-rendered) pixels, RGB
mode. -/
def pil_convert_rgb (img : PILImage) : PILImage :=
  { img with mode := "RGB" }

/-- `img.crop((left, top, right, bottom))`: the axis-aligned sub-image. -/
def pil_crop (img : PILImage) (left top right bottom : Nat) : PILImage :=
  { width := right - left, height := bottom - top, mode := img.mode,
    px := fun x y => img.px (left + x) (top + y) }

/-- The result of `cropped.save(output, format='JPEG', quality=85,
optimize=True)`. -/
structure SavedImage where
  image : PILImage
  format : String
  quality : Nat
  optimize : Bool

/-- Embeds `image_processor.center_crop_to_square` from the decoded image on:
convert to RGB if needed, crop the centred square of side `min(width,
height)`, save as JPEG at quality 85. -/
def center_crop_to_square (img₀ : PILImage) : SavedImage :=
  let img := if img₀.mode ≠ "RGB" then pil_convert_rgb img₀ else img₀
  let size := min img.width img.height
  let left := (img.width - size) / 2
  let top := (img.height - size) / 2
  let right := left + size
  let bottom := top + size
  let cropped := pil_crop img left top right bottom
  { image := cropped, format := "JPEG", quality := 85, optimize := true }

/-- C9: for every decoded image of width `w` and height `h`, the output image
is the square of side `s = min w h` whose pixel `(x, y)` is the input pixel at
offset `((w - s) / 2, (h - s) / 2)` — a centred crop box lying inside the
image — and the result is saved as JPEG at fixed quality 85. -/
theorem center_crop_to_square_spec (img : PILImage) :
    (center_crop_to_square img).image.width = min img.width img.height ∧
    (center_crop_to_square img).image.height = min img.width img.height ∧
    (img.width - min img.width img.height) / 2 + min img.width img.height ≤
      img.width ∧
    (img.height - min img.width img.height) / 2 + min img.width img.height ≤
      img.height ∧
    (∀ x y, (center_crop_to_square img).image.px x y =
      img.px ((img.width - min img.width img.height) / 2 + x)
        ((img.height - min img.width img.height) / 2 + y)) ∧
    (center_crop_to_square img).format = "JPEG" ∧
    (center_crop_to_square img).quality = 85 := by
  by_cases hmode : img.mode ≠ "RGB"
  · simp only [center_crop_to_square, pil_crop, pil_convert_rgb, if_pos hmode]
    exact ⟨by omega, by omega, by omega, by omega, by simp, by simp, by simp⟩
  · simp only [center_crop_to_square, pil_crop, pil_convert_rgb, if_neg hmode]
    exact ⟨by omega, by omega, by omega, by omega, by simp, by simp, by simp⟩

example : (generate_card idRandom (poolN 9) 3 false (some 0) 0).1 =
    .ok { grid := [[.species (sp 0), .species (sp 1), .species (sp 2)],
                   [.species (sp 3), .species (sp 4), .species (sp 5)],
                   [.species (sp 6), .species (sp 7), .species (sp 8)]],
          size := 3, has_free_square := false, seed := some 0 } := rfl

example : (generate_card idRandom (poolN 8) 3 true (some 0) 0).1 = .error .indexError := rfl

example : (generate_card idRandom (poolN 8) 3 false (some 0) 0).1 =
    .error (.valueError "Not enough species to fill the requested card size") := rfl

example : (generate_card idRandom (poolN 24) 5 true (some 0) 0).1.toOption.map
    (fun c => cellAt c.grid 2 2) = some (some .free) := by
  decide

example : (generate_card idRandom (poolN 24) 5 true (some 0) 0).1.toOption.map
    (fun c => countFree c.grid) = some 1 := by
  decide

end INatBingo
